import Mathlib

/-!
Verification development for the CLDR-to-qLocaleXML locale-data extraction
program (util/locale_database/cldr2qlocalexml.py).

Python strings are modelled as `List Char` (one entry per code point, as in
Python 2 unicode strings); `str.replace` is modelled by `pyReplace`,
`str.split` on a single-character separator by `pySplit`, dictionaries by
association lists with last-write-wins lookup, and exceptions by `Except`.
The distinguished exception class `localetools.Error` (the only class caught
at the per-file boundary of `main`) is modelled by the `PyExc.error`
constructor; every other exception kind (in particular `AssertionError`
raised by a failing `assert`) is modelled by `PyExc.assertionError`.
-/

set_option maxRecDepth 20000

deriving instance DecidableEq for Except

namespace Cldr

/-- The apostrophe character (code point 39), written via `Char.ofNat`. -/
def quoteChar : Char := Char.ofNat 39

/-- Model of Python `subject.startswith(pat)` on code-point lists. -/
def pyStartsWith : List Char → List Char → Bool
  | [], _ => true
  | _ :: _, [] => false
  | p :: ps, c :: cs => p == c && pyStartsWith ps cs

/-- Fuelled worker for `pyReplace`; the fuel is always at least the length of
the subject, so the `0` case is never taken on the wrapper's inputs. -/
def pyReplaceGo (pat rep : List Char) : Nat → List Char → List Char
  | _, [] => []
  | 0, s => s
  | fuel + 1, c :: cs =>
    if pyStartsWith pat (c :: cs) && !pat.isEmpty then
      rep ++ pyReplaceGo pat rep fuel (List.drop pat.length (c :: cs))
    else
      c :: pyReplaceGo pat rep fuel cs

/-- Model of Python `subject.replace(pat, rep)`: replace every non-overlapping
occurrence of `pat`, scanning left to right.  (The program only ever calls
`replace` with a non-empty pattern; for an empty pattern this model is the
identity.) -/
def pyReplace (pat rep s : List Char) : List Char :=
  pyReplaceGo pat rep s.length s

/-- `pyReplace` lifted to Lean `String`s. -/
def pyReplaceS (pat rep s : String) : String :=
  String.mk (pyReplace pat.toList rep.toList s.toList)

/-- Specification-level single-character substitution: replace every
occurrence of the character `a` by the list `rep`.  Python's
`str.replace` with a one-character pattern agrees with it
(`pyReplace_one` below). -/
def subst1 (a : Char) (rep : List Char) : List Char → List Char
  | [] => []
  | c :: cs => (if c = a then rep else [c]) ++ subst1 a rep cs

/-- Model of Python `s.split(sep)` for a single-character separator:
always returns at least one piece, empty pieces included. -/
def pySplit (sep : Char) : List Char → List (List Char)
  | [] => [[]]
  | c :: cs =>
    if c = sep then
      [] :: pySplit sep cs
    else
      match pySplit sep cs with
      | [] => [[c]]
      | p :: ps => (c :: p) :: ps

/-- Model of Python `s.endswith(suffix)` on Lean strings. -/
def pyEndsWithS (suffix s : String) : Bool :=
  suffix.toList.isSuffixOf s.toList

/-- Model of Python `str.isupper` for the ASCII tags the program handles:
at least one cased (here: alphabetic) character, and every cased character
upper-case. -/
def pyIsUpperS (s : List Char) : Bool :=
  s.any (fun c => c.isAlpha) && s.all (fun c => !c.isAlpha || c.isUpper)

/-- Model of Python `str.islower` for ASCII tags. -/
def pyIsLowerS (s : List Char) : Bool :=
  s.any (fun c => c.isAlpha) && s.all (fun c => !c.isAlpha || c.isLower)

/-- Model of Python `str.isdigit` for ASCII tags: non-empty and all digits. -/
def pyIsDigitS (s : List Char) : Bool :=
  !s.isEmpty && s.all (fun c => c.isDigit)

/-! ### Pattern normalizer (`parse_number_format`, source lines 74-102) -/

/-- The inner loop of `skip_repeating_pattern` (source lines 78-87): walk the
string, dropping every placeholder character that immediately follows another
placeholder; `seen` is the loop's boolean state. -/
def collapseHash : List Char → Bool → List Char
  | [], _ => []
  | c :: cs, seen =>
    if c = '#' then
      if seen then collapseHash cs true
      else c :: collapseHash cs true
    else
      c :: collapseHash cs false

/-- Model of `skip_repeating_pattern` (source lines 76-88):
`x.replace('0', '#').replace(',', '').replace('.', '')` followed by the
run-collapsing loop. -/
def skip_repeating_pattern (x : List Char) : List Char :=
  collapseHash (pyReplace ['.'] [] (pyReplace [','] [] (pyReplace ['0'] ['#'] x))) false

/-- The `minus` and `plus` glyphs of the locale under construction, as consumed
by `parse_number_format` via its `data` argument. -/
structure NumData where
  minus : List Char
  plus : List Char
deriving DecidableEq

/-- The per-side body of `parse_number_format` (source lines 92-100): collapse
placeholder runs, substitute `#` by `%1` and the currency sign by `%2`,
re-escape quote-delimited text via the `###` sentinel, and substitute the
locale's minus and plus glyphs for the ASCII ones. -/
def normalize_side (d : NumData) (p0 : List Char) : List Char :=
  pyReplace ['+'] d.plus
    (pyReplace ['-'] d.minus
      (pyReplace ['#', '#', '#'] [quoteChar]
        (pyReplace [quoteChar] []
          (pyReplace [quoteChar, quoteChar] ['#', '#', '#']
            (pyReplace ['¤'] ['%', '2']
              (pyReplace ['#'] ['%', '1']
                (skip_repeating_pattern p0)))))))

/-- Model of `parse_number_format` (source lines 74-102): split the pattern on
the positive/negative separator and normalize each side. -/
def parse_number_format (patterns : List Char) (d : NumData) : List (List Char) :=
  (pySplit ';' patterns).map (normalize_side d)

/-- The digit-placeholder unification `replace('0', '#')` of
`skip_repeating_pattern`, as a character map (specification form). -/
def dz (c : Char) : Char :=
  if c = '0' then '#' else c

/-- Specification form of run collapsing: keep exactly one `#` per maximal
run of consecutive `#` characters, all other characters unchanged. -/
def squashHashRuns : List Char → List Char
  | [] => []
  | c :: cs =>
    let r := squashHashRuns cs
    if c = '#' ∧ r.headD ' ' = '#' then r else c :: r

/-- Drop one leading `#`, if any: the bridge between the two collapse
formulations. -/
def tailIfHash : List Char → List Char
  | [] => []
  | c :: r => if c = '#' then r else c :: r

/-- ASCII minus and plus glyphs, the `data` argument used in concrete
pattern-normalization computations. -/
def numAscii : NumData := { minus := ['-'], plus := ['+'] }

/-! ### Unit quantifier inference (`unit_quantifiers`, source lines 137-176) -/

/-- The SI quantifier tuple of `unit_quantifiers` (stops at exa). -/
def si_quantifiers : List (List Char) :=
  ["kilo".toList, "mega".toList, "giga".toList, "tera".toList, "peta".toList, "exa".toList]

/-- Python `q[0].upper()` on a code-point list. -/
def headUpper : List Char → List Char
  | [] => []
  | c :: _ => [c.toUpper]

/-- The first-call (`suffix == 'B'`) loop of `unit_quantifiers` (source lines
154-166).  `find k fb` models `findUnitDef(path, k, fb)`; an empty result is
Python-falsy.  Returns the yielded names together with the final `known`
list, which the second call reuses. -/
def si_go (find : List Char → List Char → List Char) (stem : List Char → List Char)
    (suffix : List Char) :
    List (List Char) → List Char → List (List Char) → List (List Char) × List (List Char)
  | [], _, known => ([], known)
  | q :: qs, tail, known =>
    let it := find (stem q) []
    let letter := if q = "kilo".toList then ['k'] else headUpper q
    if it = [] then
      let r := si_go find stem suffix qs tail known
      ((letter ++ tail) :: r.1, r.2)
    else if pyStartsWith letter it then
      let rest := it.drop 1
      let tail2 := if known.all (fun k => rest == k) then rest else suffix
      let r := si_go find stem suffix qs tail2 (known ++ [rest])
      (it :: r.1, r.2)
    else
      let r := si_go find stem suffix qs tail known
      (it :: r.1, r.2)

/-- Model of `unit_quantifiers` (source lines 137-176).  With `suffix = "B"`
it runs the SI loop; otherwise (the IEC call, `suffix = "iB"`) it pops the
last learned tail from `known`, adopts `'i' + tail` if all learned tails
agree, and yields `find` results with fallback `Q + suffix` for each
two-letter IEC stem.  Returns the yields paired with the final `known`. -/
def unit_quantifiers (find : List Char → List Char → List Char)
    (stem : List Char → List Char) (suffix : List Char) (known : List (List Char)) :
    List (List Char) × List (List Char) :=
  if suffix = "B".toList then
    si_go find stem suffix si_quantifiers suffix known
  else
    let p :=
      match known.getLast? with
      | none => (suffix, known)
      | some byte =>
        (if known.dropLast.all (fun k => byte == k) then 'i' :: byte else suffix,
         known.dropLast)
    (si_quantifiers.map (fun q => find (stem (q.take 2)) (headUpper q ++ p.1)), p.2)

/-- Lookup table for the French-like scenario of claim C3: kilobyte is named
`ko`, megabyte `Mo`, everything else is absent (the fallback is returned). -/
def findFrLike : List Char → List Char → List Char :=
  fun key fb =>
    if key = "kilo".toList then "ko".toList
    else if key = "mega".toList then "Mo".toList
    else fb

/-- Lookup table for the inconsistent-suffix scenario of claim C3: kilobyte
is named `ko` but megabyte `MB`, so no common tail exists. -/
def findMixed : List Char → List Char → List Char :=
  fun key fb =>
    if key = "kilo".toList then "ko".toList
    else if key = "mega".toList then "MB".toList
    else fb

/-! ### Locale-name splitting and parsing (source lines 463-529) -/

/-- The script test of `splitLocale` (source line 475): four letters,
capitalised first letter, lower-case remainder. -/
def isScriptTag (tag : List Char) : Bool :=
  tag.length == 4 &&
    (match tag with
     | c :: _ => c.isUpper
     | [] => false) &&
    pyIsLowerS (tag.drop 1)

/-- The territory test of `splitLocale` (source line 485):
`tag and tag.isupper() or tag.isdigit()`. -/
def isTerritoryTag (tag : List Char) : Bool :=
  (!tag.isEmpty && pyIsUpperS tag) || pyIsDigitS tag

/-- The yield sequence of `splitLocale` as a function of the underscore-split
tag list: a single tag is yielded alone; with a second tag present, the
script test is applied to it, then the territory test to the following tag
(when the script matched) or to the same tag (when it did not); unmatched
positions yield the empty string.  Remaining tags are trailing cruft: the
source only writes a diagnostic for them and yields nothing. -/
def splitTags : List (List Char) → List (List Char)
  | [] => []
  | [lang] => [lang]
  | [lang, tag] =>
    if isScriptTag tag then [lang, tag, []]
    else if isTerritoryTag tag then [lang, [], tag]
    else [lang, [], []]
  | lang :: tag :: tag2 :: _ =>
    if isScriptTag tag then
      if isTerritoryTag tag2 then [lang, tag, tag2] else [lang, tag, []]
    else if isTerritoryTag tag then [lang, [], tag]
    else [lang, [], []]

/-- Model of `splitLocale` (source lines 463-493): split on underscores and
yield either the single language tag, or language plus script-or-empty plus
territory-or-empty. -/
def splitLocale (name : List Char) : List (List Char) :=
  splitTags (pySplit '_' name)

/-- The `enumdata` vocabulary tables and name lists consumed by
`_parseLocale`: code-to-id maps (with `-1` for unknown) and id-to-name
lists. -/
structure NameMaps where
  langId : List Char → Int
  scriptId : List Char → Int
  countryId : List Char → Int
  langName : Int → String
  scriptName : Int → String
  countryName : Int → String

/-- Model of `_parseLocale` (source lines 495-529): split the tag, default the
three components to the `Any` placeholders, resolve each non-empty code
through the vocabulary tables, and fail (with `localetools.Error`, here the
`Except.error` branch) on `und` or on an unknown code. -/
def _parseLocale (nm : NameMaps) (l : List Char) :
    Except String (String × String × String) :=
  if l = "und".toList then Except.error "We treat unknown locale like C"
  else
    let parts := splitLocale l
    let language_code := parts.headD []
    let rest2 :=
      match parts with
      | [_, s, c] => (s, c)
      | _ => ([], [])
    let script_code := rest2.1
    let country_code := rest2.2
    do
      let language ←
        if language_code ≠ "und".toList then
          let lid := nm.langId language_code
          if lid = -1 then throw ("Unknown language code " ++ String.mk language_code)
          else pure (nm.langName lid)
        else pure "AnyLanguage"
      let script ←
        if script_code ≠ [] then
          let sid := nm.scriptId script_code
          if sid = -1 then throw ("Unknown script code " ++ String.mk script_code)
          else pure (nm.scriptName sid)
        else pure "AnyScript"
      let country ←
        if country_code ≠ [] then
          let cid := nm.countryId country_code
          if cid = -1 then throw ("Unknown country code " ++ String.mk country_code)
          else pure (nm.countryName cid)
        else pure "AnyCountry"
      pure (language, script, country)

/-- The per-entry body of `likelySubtags` (source lines 538-556): parse both
sides and apply the TR35 likely-subtag substitution rule to the target
triple. -/
def likelySubtagPair (nm : NameMaps) (fromTag toTag : List Char) :
    Except String ((String × String × String) × (String × String × String)) := do
  let f ← _parseLocale nm fromTag
  let t ← _parseLocale nm toTag
  let to_country := if t.2.2 = "AnyCountry" ∧ f.2.2 ≠ t.2.2 then f.2.2 else t.2.2
  let to_script := if t.2.1 = "AnyScript" ∧ f.2.1 ≠ t.2.1 then f.2.1 else t.2.1
  pure ((f.1, f.2.1, f.2.2), (t.1, to_script, to_country))

/-! ### Number-system-aware lookup (`get_number_in_system`, source lines 293-305) -/

/-- Model of `get_number_in_system` (source lines 293-305).  `fe` is the
`findEntry` capability: it returns the entry or raises `localetools.Error`
(the `Except.error` branch, the only kind the function catches).  With a
truthy numbering system the attribute-filtered query is tried first, then the
symbols-table-filtered spelling, then the unscoped query. -/
def get_number_in_system (fe : String → Except String String) (xpath : String)
    (ns : Option String) : Except String String :=
  match ns with
  | some n =>
    if n = "" then fe xpath
    else
      match fe (xpath ++ "[numberSystem=" ++ n ++ "]") with
      | Except.ok v => Except.ok v
      | Except.error _ =>
        match fe (pyReplaceS "/symbols/" ("/symbols[numberSystem=" ++ n ++ "]/") xpath) with
        | Except.ok v => Except.ok v
        | Except.error _ => fe xpath
  | none => fe xpath

/-! ### Locale record builder (`_generateLocaleInfo`, source lines 215-421)
and driver loop (`main`, source lines 627-637) -/

/-- The two exception kinds relevant to the file-processing boundary:
`localetools.Error` (caught per file) and `AssertionError` (raised by the
`assert` at source line 309, caught nowhere). -/
inductive PyExc where
  | error (msg : String)
  | assertionError (msg : String)
deriving DecidableEq

/-- Lift a `findEntry`-style failure into the exception model: `findEntry`
raises `localetools.Error`. -/
def liftE : Except String α → Except PyExc α
  | Except.ok a => Except.ok a
  | Except.error m => Except.error (PyExc.error m)

/-- The `enumdata` code-to-id tables used by `_generateLocaleInfo`. -/
structure IdMaps where
  lang : String → Int
  script : String → Int
  country : String → Int

/-- The fields of the locale record that this development models.  The full
record of the program carries many further fields (list patterns, dates,
month and day names, ...) whose extraction consists of further `findEntry`
calls; their failures are `localetools.Error` like the modelled ones and are
elided here. -/
structure LocaleRecord where
  language_id : Int
  script_id : Int
  country_id : Int
  variant_code : String
  country_code : String
  decimal : String
  group : String
  minus : String
  plus : String
  currencyFormat : String
  currencyNegativeFormat : String
deriving DecidableEq

/-- Model of `_generateLocaleInfo` (source lines 215-421), restricted to the
fields named in `LocaleRecord`.  The control flow follows the source: a
non-`.xml` path and the `root` language yield an empty result; a non-empty
variant and unknown codes raise `localetools.Error`; an unspecified country
yields an empty result; the numbering system is looked up with failure
tolerated; the decimal and group symbols are looked up (failures propagate as
`Error`) and the `assert` at source line 309 raises an `AssertionError` when
they coincide; the currency pattern is normalized by `parse_number_format`
with the locale's minus and plus glyphs. -/
def genLocaleInfo (ids : IdMaps) (fe : String → Except String String)
    (path language_code script_code country_code variant_code : String) :
    Except PyExc (Option LocaleRecord) :=
  if !pyEndsWithS ".xml" path then Except.ok none
  else if language_code = "root" then Except.ok none
  else if variant_code ≠ "" then
    Except.error (PyExc.error ("We do not support variants (" ++ variant_code ++ ")"))
  else
    let language_id := ids.lang language_code
    if language_id ≤ 0 then
      Except.error (PyExc.error ("unknown language code " ++ language_code))
    else
      let script_id := ids.script script_code
      if script_id = -1 then
        Except.error (PyExc.error ("unknown script code " ++ script_code))
      else if country_code = "" then Except.ok none
      else
        let country_id := ids.country country_code
        if country_id ≤ 0 then
          Except.error (PyExc.error ("unknown country code " ++ country_code))
        else
          let ns :=
            match fe "numbers/defaultNumberingSystem" with
            | Except.ok v => some v
            | Except.error _ => none
          do
            let decimal ← liftE (get_number_in_system fe "numbers/symbols/decimal" ns)
            let group ← liftE (get_number_in_system fe "numbers/symbols/group" ns)
            if decimal = group then
              throw (PyExc.assertionError "decimal != group")
            let minus ← liftE (get_number_in_system fe "numbers/symbols/minusSign" ns)
            let plus ← liftE (get_number_in_system fe "numbers/symbols/plusSign" ns)
            let cfmt ← liftE (get_number_in_system fe
              "numbers/currencyFormats/currencyFormatLength/currencyFormat/pattern" ns)
            let parsed := parse_number_format cfmt.toList
              { minus := minus.toList, plus := plus.toList }
            pure (some
              { language_id := language_id, script_id := script_id,
                country_id := country_id, variant_code := variant_code,
                country_code := country_code, decimal := decimal, group := group,
                minus := minus, plus := plus,
                currencyFormat := String.mk (parsed.headD []),
                currencyNegativeFormat :=
                  if parsed.length > 1 then String.mk ((parsed.drop 1).headD []) else "" })

/-- The mutable state of the driver loop: the locale database (keyed by the
identity quadruple, later insertions overwriting earlier ones), the skip
list, and the diagnostic stream. -/
structure DriverState where
  db : List ((Int × Int × Int × String) × LocaleRecord)
  skips : List String
  diags : List String
deriving DecidableEq

/-- Dictionary insertion with overwrite, as for the Python dict
`locale_database`. -/
def dbInsert (db : List ((Int × Int × Int × String) × LocaleRecord))
    (k : Int × Int × Int × String) (l : LocaleRecord) :
    List ((Int × Int × Int × String) × LocaleRecord) :=
  db.filter (fun p => p.1 ≠ k) ++ [(k, l)]

/-- The diagnostic line written by `main` when a file is skipped. -/
def skipFileMsg (f m : String) : String :=
  "skipping file " ++ f ++ " (" ++ m ++ ")"

/-- One iteration of the per-file loop of `main` (source lines 627-637): an
empty result goes to the skip list, a record is inserted under its identity
key, a `localetools.Error` becomes a diagnostic line, and any other exception
escapes the loop. -/
def processFile (gen : String → Except PyExc (Option LocaleRecord))
    (st : DriverState) (f : String) : Except PyExc DriverState :=
  match gen f with
  | Except.ok none => Except.ok { st with skips := st.skips ++ [f] }
  | Except.ok (some l) =>
    Except.ok { st with
      db := dbInsert st.db (l.language_id, l.script_id, l.country_id, l.variant_code) l }
  | Except.error (PyExc.error m) =>
    Except.ok { st with diags := st.diags ++ [skipFileMsg f m] }
  | Except.error (PyExc.assertionError m) => Except.error (PyExc.assertionError m)

/-- The per-file loop of `main` over the directory listing. -/
def mainLoop (gen : String → Except PyExc (Option LocaleRecord)) (st : DriverState) :
    List String → Except PyExc DriverState
  | [] => Except.ok st
  | f :: fs =>
    match processFile gen st f with
    | Except.ok st2 => mainLoop gen st2 fs
    | Except.error e => Except.error e

/-! ### Week data (`integrateWeekData`, source lines 423-461) -/

/-- Python dict lookup on an association list built by successive assignments:
the last write wins. -/
def dictGet (m : List (String × String)) (k : String) : Option String :=
  m.foldl (fun acc p => if p.1 = k then some p.2 else acc) none

/-- The dict-building loops of `integrateWeekData` (source lines 431-444):
for each day, map every territory listed for that day to the day; later days
overwrite earlier ones. -/
def buildDayMap (lookup : String → List String) (days : List String) :
    List (String × String) :=
  (days.map (fun day => (lookup day).map (fun cc => (cc, day)))).flatten

/-- The three week-data fields back-filled into each locale record. -/
structure WeekFields where
  firstDayOfWeek : String
  weekendStart : String
  weekendEnd : String
deriving DecidableEq

/-- The per-record body of the back-fill loop of `integrateWeekData` (source
lines 446-461): take the country's entry from each of the three maps,
falling back to the world default "001"; a missing "001" entry is a
`KeyError`, modelled as `none`. -/
def integrateWeekLocale (fd ws we : List (String × String)) (cc : String) :
    Option WeekFields := do
  let f ← if (dictGet fd cc).isSome then dictGet fd cc else dictGet fd "001"
  let s ← if (dictGet ws cc).isSome then dictGet ws cc else dictGet ws "001"
  let e ← if (dictGet we cc).isSome then dictGet we cc else dictGet we "001"
  pure { firstDayOfWeek := f, weekendStart := s, weekendEnd := e }

/-- The back-fill pass over the whole database (one entry per record country
code). -/
def integrateWeekData (fd ws we : List (String × String)) (ccs : List String) :
    Option (List WeekFields) :=
  ccs.mapM (integrateWeekLocale fd ws we)

/-! ### Concrete data for counterexamples and witnesses -/

/-- An entry finder whose decimal and group symbols coincide (both `"."`),
triggering the `assert` of source line 309; every other query fails with
`localetools.Error`. -/
def feAssert : String → Except String String := fun q =>
  if q = "numbers/symbols/decimal" then Except.ok "."
  else if q = "numbers/symbols/group" then Except.ok "."
  else Except.error "no entry"

/-- Vocabulary tables that recognize every code (scripts resolve to 0, the
`AnyScript` id). -/
def idsAll : IdMaps :=
  { lang := fun _ => 1, script := fun _ => 0, country := fun _ => 1 }

/-- A per-file generator hitting the failing `assert`: identity `xx_YY`, no
variant, entry finder `feAssert`. -/
def genAssert : String → Except PyExc (Option LocaleRecord) := fun f =>
  genLocaleInfo idsAll feAssert f "xx" "" "YY" ""

/-- A per-file generator raising the variant structural rejection, a
`localetools.Error`. -/
def genVariant : String → Except PyExc (Option LocaleRecord) := fun f =>
  genLocaleInfo idsAll feAssert f "xx" "" "YY" "POSIX"

/-- A per-file generator that always yields the empty result. -/
def genOkNone : String → Except PyExc (Option LocaleRecord) := fun _ =>
  Except.ok none

/-- The empty driver state. -/
def st0 : DriverState := { db := [], skips := [], diags := [] }

/-- Entry finder for the end-to-end currency-format scenario of claim C2:
decimal `.`, group `,`, ASCII minus and plus, the currency pattern of the
claim; the numbering-system query (and everything else) fails, so the
unscoped queries are used. -/
def feC2 : String → Except String String := fun q =>
  if q = "numbers/symbols/decimal" then Except.ok "."
  else if q = "numbers/symbols/group" then Except.ok ","
  else if q = "numbers/symbols/minusSign" then Except.ok "-"
  else if q = "numbers/symbols/plusSign" then Except.ok "+"
  else if q = "numbers/currencyFormats/currencyFormatLength/currencyFormat/pattern" then
    Except.ok "#,##0.00 ¤;(#,##0.00 ¤)"
  else Except.error "no entry"

/-- Vocabulary tables for the claim C2 scenario: `xx` resolves to 111,
`YY` to 222, scripts to 0. -/
def idsC2 : IdMaps :=
  { lang := fun c => if c = "xx" then 111 else -1,
    script := fun _ => 0,
    country := fun c => if c = "YY" then 222 else -1 }

/-- Vocabulary tables for the likely-subtag witness: `aa` is language 11
(Afar), `Latn` script 7 (Latin), `ET` country 5 (Ethiopia). -/
def nmAa : NameMaps :=
  { langId := fun c => if c = "aa".toList then 11 else -1,
    scriptId := fun c => if c = "Latn".toList then 7 else -1,
    countryId := fun c => if c = "ET".toList then 5 else -1,
    langName := fun i => if i = 11 then "Afar" else "?",
    scriptName := fun i => if i = 7 then "Latin" else "?",
    countryName := fun i => if i = 5 then "Ethiopia" else "?" }

/-- The day tuple of `integrateWeekData` (source line 429). -/
def weekDays : List String :=
  ["mon", "tue", "wed", "thu", "fri", "sat", "sun"]

/-- Week-data source in which only the world default `001` is mapped:
first day `mon`. -/
def fdWorld : List (String × String) :=
  buildDayMap (fun d => if d = "mon" then ["001"] else []) weekDays

/-- Weekend-start map with only the world default: `sat`. -/
def wsWorld : List (String × String) :=
  buildDayMap (fun d => if d = "sat" then ["001"] else []) weekDays

/-- Weekend-end map with only the world default: `sun`. -/
def weWorld : List (String × String) :=
  buildDayMap (fun d => if d = "sun" then ["001"] else []) weekDays

/-- Entry finder for the claim C8 witness: the attribute-filtered decimal
query fails, the symbols-table-filtered one succeeds with `,`, the unscoped
one would give `.`. -/
def feC8 : String → Except String String := fun q =>
  if q = "numbers/symbols/decimal[numberSystem=latn]" then Except.error "miss"
  else if q = "numbers/symbols[numberSystem=latn]/decimal" then Except.ok ","
  else Except.ok "."

/-! ## Lemmas about the string-operation models -/

theorem pyReplaceGo_congr (pat rep : List Char) :
    ∀ (f1 : Nat) (s : List Char) (f2 : Nat), s.length ≤ f1 → s.length ≤ f2 →
      pyReplaceGo pat rep f1 s = pyReplaceGo pat rep f2 s := by
  intro f1
  induction f1 with
  | zero =>
    intro s f2 h1 _
    have hs : s = [] := List.length_eq_zero.mp (Nat.le_zero.mp h1)
    subst hs
    cases f2 <;> rfl
  | succ f ih =>
    intro s f2 h1 h2
    cases s with
    | nil => cases f2 <;> rfl
    | cons c cs =>
      cases f2 with
      | zero => simp at h2
      | succ g =>
        simp only [pyReplaceGo]
        by_cases hc : (pyStartsWith pat (c :: cs) && !pat.isEmpty) = true
        · rw [if_pos hc, if_pos hc]
          have hp : pat ≠ [] := by
            intro he
            subst he
            simp at hc
          have hp1 : 1 ≤ pat.length := List.length_pos.mpr hp
          have hd : (List.drop pat.length (c :: cs)).length ≤ cs.length := by
            simp only [List.length_drop, List.length_cons]
            omega
          congr 1
          exact ih _ _ (le_trans hd (Nat.le_of_succ_le_succ h1))
            (le_trans hd (Nat.le_of_succ_le_succ h2))
        · rw [if_neg hc, if_neg hc]
          congr 1
          exact ih _ _ (Nat.le_of_succ_le_succ h1) (Nat.le_of_succ_le_succ h2)

theorem pyReplace_nil (pat rep : List Char) : pyReplace pat rep [] = [] := rfl

theorem pyReplace_cons (pat rep : List Char) (c : Char) (cs : List Char) :
    pyReplace pat rep (c :: cs) =
      if pyStartsWith pat (c :: cs) && !pat.isEmpty then
        rep ++ pyReplace pat rep (List.drop pat.length (c :: cs))
      else
        c :: pyReplace pat rep cs := by
  show pyReplaceGo pat rep (c :: cs).length (c :: cs) = _
  simp only [List.length_cons, pyReplaceGo]
  by_cases hc : (pyStartsWith pat (c :: cs) && !pat.isEmpty) = true
  · rw [if_pos hc, if_pos hc]
    have hp : pat ≠ [] := by
      intro he
      subst he
      simp at hc
    have hp1 : 1 ≤ pat.length := List.length_pos.mpr hp
    congr 1
    apply pyReplaceGo_congr
    · simp only [List.length_drop, List.length_cons]; omega
    · exact le_refl _
  · rw [if_neg hc, if_neg hc]
    rfl

theorem pyReplace_one (a : Char) (rep : List Char) :
    ∀ s, pyReplace [a] rep s = subst1 a rep s := by
  intro s
  induction s with
  | nil => rfl
  | cons c cs ih =>
    rw [pyReplace_cons]
    by_cases h : c = a
    · have hps : pyStartsWith [a] (c :: cs) = true := by
        simp [pyStartsWith, h]
      rw [if_pos (by simp [hps])]
      simp [subst1, h, ih]
    · have hps : pyStartsWith [a] (c :: cs) = false := by
        simp only [pyStartsWith]
        simp [beq_eq_false_iff_ne.mpr (fun e : a = c => h e.symm)]
      rw [if_neg (by simp [hps])]
      simp [subst1, h, ih]

theorem subst1_append (a : Char) (rep : List Char) (s t : List Char) :
    subst1 a rep (s ++ t) = subst1 a rep s ++ subst1 a rep t := by
  induction s with
  | nil => rfl
  | cons c cs ih => simp [subst1, ih]

theorem subst1_of_not_mem (a : Char) (rep : List Char) (s : List Char) (h : a ∉ s) :
    subst1 a rep s = s := by
  induction s with
  | nil => rfl
  | cons c cs ih =>
    have hc : c ≠ a := fun e => h (e ▸ List.mem_cons_self c cs)
    simp [subst1, hc, ih (fun hm => h (List.mem_cons_of_mem c hm))]

theorem mem_subst1 (c a : Char) (rep : List Char) (s : List Char)
    (h : c ∈ subst1 a rep s) : c ∈ rep ∨ (c ∈ s ∧ c ≠ a) := by
  induction s with
  | nil => simp [subst1] at h
  | cons d ds ih =>
    simp only [subst1, List.mem_append] at h
    rcases h with h | h
    · by_cases hd : d = a
      · rw [if_pos hd] at h
        exact Or.inl h
      · rw [if_neg hd] at h
        have hc : c = d := by simpa using h
        exact Or.inr ⟨hc ▸ List.mem_cons_self d ds, hc ▸ hd⟩
    · rcases ih h with h2 | ⟨h2, h3⟩
      · exact Or.inl h2
      · exact Or.inr ⟨List.mem_cons_of_mem d h2, h3⟩

theorem subst1_singleton_eq_map (a b : Char) (s : List Char) :
    subst1 a [b] s = s.map (fun c => if c = a then b else c) := by
  induction s with
  | nil => rfl
  | cons c cs ih =>
    by_cases h : c = a <;> simp [subst1, h, ih]

theorem subst1_nil_eq_filter (a : Char) (s : List Char) :
    subst1 a [] s = s.filter (fun c => c != a) := by
  induction s with
  | nil => rfl
  | cons c cs ih =>
    by_cases h : c = a
    · simp [subst1, h, ih, List.filter_cons]
    · simp [subst1, h, ih, List.filter_cons, bne_iff_ne]

theorem subst1_ne_nil (a : Char) (rep : List Char) (s : List Char)
    (hr : rep ≠ []) (hs : s ≠ []) : subst1 a rep s ≠ [] := by
  cases s with
  | nil => exact absurd rfl hs
  | cons c cs =>
    simp only [subst1]
    intro hEq
    rcases List.append_eq_nil.mp hEq with ⟨h1, _⟩
    by_cases h : c = a
    · rw [if_pos h] at h1
      exact hr h1
    · rw [if_neg h] at h1
      simp at h1

theorem pyReplace_id_of_head_not_mem (p : Char) (pr rep u : List Char) (h : p ∉ u) :
    pyReplace (p :: pr) rep u = u := by
  induction u with
  | nil => rfl
  | cons c cs ih =>
    have hpc : (p == c) = false :=
      beq_eq_false_iff_ne.mpr (fun e => h (e ▸ List.mem_cons_self c cs))
    have hps : pyStartsWith (p :: pr) (c :: cs) = false := by
      simp [pyStartsWith, hpc]
    rw [pyReplace_cons, if_neg (by simp [hps])]
    rw [ih (fun hm => h (List.mem_cons_of_mem c hm))]

theorem pyReplace_pair_append (a : Char) (rep u : List Char) (h : a ∉ u) :
    pyReplace [a, a] rep (u ++ [a]) = u ++ [a] := by
  induction u with
  | nil =>
    have hps : pyStartsWith [a, a] [a] = false := by
      simp [pyStartsWith]
    simp only [List.nil_append]
    rw [pyReplace_cons, if_neg (by simp [hps])]
    rfl
  | cons c cs ih =>
    have hac : (a == c) = false :=
      beq_eq_false_iff_ne.mpr (fun e => h (e ▸ List.mem_cons_self c cs))
    have hps : pyStartsWith [a, a] (c :: (cs ++ [a])) = false := by
      simp [pyStartsWith, hac]
    simp only [List.cons_append]
    rw [pyReplace_cons, if_neg (by simp [hps])]
    rw [ih (fun hm => h (List.mem_cons_of_mem c hm))]

theorem pyReplace_pair_quoted (a : Char) (rep u : List Char) (h : a ∉ u) (hu : u ≠ []) :
    pyReplace [a, a] rep (a :: u ++ [a]) = a :: u ++ [a] := by
  cases u with
  | nil => exact absurd rfl hu
  | cons d ds =>
    have had : (a == d) = false :=
      beq_eq_false_iff_ne.mpr (fun e => h (e ▸ List.mem_cons_self d ds))
    have hps : pyStartsWith [a, a] (a :: (d :: ds ++ [a])) = false := by
      simp [pyStartsWith, had]
    simp only [List.cons_append]
    rw [pyReplace_cons, if_neg (by rw [show pyStartsWith [a, a] (a :: d :: (ds ++ [a])) = false from hps]; simp)]
    have := pyReplace_pair_append a rep (d :: ds) h
    simpa using this

/-! ## Lemmas about the run-collapsing loop -/

theorem collapseHash_cons_ne (c : Char) (cs : List Char) (b : Bool) (h : c ≠ '#') :
    collapseHash (c :: cs) b = c :: collapseHash cs false := by
  simp [collapseHash, h]

theorem collapseHash_cons_hash_true (cs : List Char) :
    collapseHash ('#' :: cs) true = collapseHash cs true := by
  simp [collapseHash]

theorem collapseHash_cons_hash_false (cs : List Char) :
    collapseHash ('#' :: cs) false = '#' :: collapseHash cs true := by
  simp [collapseHash]

theorem mem_collapseHash (c : Char) : ∀ (l : List Char) (b : Bool),
    c ∈ collapseHash l b → c ∈ l := by
  intro l
  induction l with
  | nil => intro b h; simp [collapseHash] at h
  | cons d ds ih =>
    intro b h
    by_cases hd : d = '#'
    · subst hd
      cases b with
      | true =>
        rw [collapseHash_cons_hash_true] at h
        exact List.mem_cons_of_mem _ (ih true h)
      | false =>
        rw [collapseHash_cons_hash_false] at h
        rcases List.mem_cons.mp h with h1 | h1
        · exact h1 ▸ List.mem_cons_self _ ds
        · exact List.mem_cons_of_mem _ (ih true h1)
    · rw [collapseHash_cons_ne d ds b hd] at h
      rcases List.mem_cons.mp h with h1 | h1
      · exact h1 ▸ List.mem_cons_self d ds
      · exact List.mem_cons_of_mem d (ih false h1)

theorem collapseHash_append_single (c : Char) (h : c ≠ '#') :
    ∀ (l : List Char) (b : Bool), collapseHash (l ++ [c]) b = collapseHash l b ++ [c] := by
  intro l
  induction l with
  | nil => intro b; simp [collapseHash, h]
  | cons d ds ih =>
    intro b
    by_cases hd : d = '#'
    · subst hd
      cases b with
      | true =>
        rw [List.cons_append, collapseHash_cons_hash_true, collapseHash_cons_hash_true,
          ih true]
      | false =>
        rw [List.cons_append, collapseHash_cons_hash_false, collapseHash_cons_hash_false,
          ih true, List.cons_append]
    · rw [List.cons_append, collapseHash_cons_ne d _ b hd, collapseHash_cons_ne d ds b hd,
        ih false, List.cons_append]

theorem collapseHash_ne_nil (l : List Char) (h : l ≠ []) :
    collapseHash l false ≠ [] := by
  cases l with
  | nil => exact absurd rfl h
  | cons c cs =>
    by_cases hc : c = '#'
    · subst hc
      rw [collapseHash_cons_hash_false]
      simp
    · rw [collapseHash_cons_ne c cs false hc]
      simp

theorem collapseHash_eq_squash : ∀ l : List Char,
    collapseHash l false = squashHashRuns l ∧
    collapseHash l true = tailIfHash (squashHashRuns l) := by
  intro l
  induction l with
  | nil => exact ⟨rfl, rfl⟩
  | cons c cs ih =>
    obtain ⟨ih0, ih1⟩ := ih
    by_cases hc : c = '#'
    · subst hc
      constructor
      · rw [collapseHash_cons_hash_false, ih1]
        simp only [squashHashRuns]
        cases hsq : squashHashRuns cs with
        | nil => simp [tailIfHash]
        | cons d r =>
          by_cases hd : d = '#'
          · subst hd; simp [tailIfHash]
          · simp [tailIfHash, hd]
      · rw [collapseHash_cons_hash_true, ih1]
        simp only [squashHashRuns]
        cases hsq : squashHashRuns cs with
        | nil => simp [tailIfHash]
        | cons d r =>
          by_cases hd : d = '#'
          · subst hd; simp [tailIfHash]
          · simp [tailIfHash, hd]
    · have hsq : squashHashRuns (c :: cs) = c :: squashHashRuns cs := by
        simp [squashHashRuns, hc]
      constructor
      · rw [collapseHash_cons_ne c cs false hc, ih0, hsq]
      · rw [collapseHash_cons_ne c cs true hc, ih0, hsq]
        simp [tailIfHash, hc]

theorem skip_eq (x : List Char) :
    skip_repeating_pattern x =
      collapseHash (((x.map dz).filter (fun c => c != ',')).filter (fun c => c != '.')) false := by
  show collapseHash (pyReplace ['.'] [] (pyReplace [','] [] (pyReplace ['0'] ['#'] x))) false = _
  rw [pyReplace_one, pyReplace_one, pyReplace_one, subst1_singleton_eq_map,
    subst1_nil_eq_filter, subst1_nil_eq_filter]
  rfl

/-! ## Lemmas about `pySplit` -/

theorem pySplit_ne_nil (sep : Char) : ∀ s, pySplit sep s ≠ [] := by
  intro s
  induction s with
  | nil => simp [pySplit]
  | cons c cs ih =>
    simp only [pySplit]
    by_cases hc : c = sep
    · rw [if_pos hc]; simp
    · rw [if_neg hc]
      cases hcs : pySplit sep cs with
      | nil => exact absurd hcs ih
      | cons p ps => simp

theorem pySplit_of_not_mem (sep : Char) : ∀ s, sep ∉ s → pySplit sep s = [s] := by
  intro s
  induction s with
  | nil => intro _; rfl
  | cons c cs ih =>
    intro h
    have hc : ¬(c = sep) := fun e => h (e ▸ List.mem_cons_self c cs)
    simp only [pySplit, if_neg hc]
    rw [ih (fun hm => h (List.mem_cons_of_mem c hm))]

/-! ## Lemmas about `skip_repeating_pattern` and quoted spans -/

theorem not_mem_skip (c : Char) (s : List Char) (hc0 : c ≠ '#') (hs : c ∉ s) :
    c ∉ skip_repeating_pattern s := by
  intro hmem
  rw [skip_eq] at hmem
  have h1 := mem_collapseHash _ _ _ hmem
  have h2 := (List.mem_filter.mp h1).1
  have h3 := (List.mem_filter.mp h2).1
  rcases List.mem_map.mp h3 with ⟨a, ha, hdz⟩
  by_cases h0 : a = '0'
  · rw [dz, if_pos h0] at hdz
    exact hc0 hdz.symm
  · rw [dz, if_neg h0] at hdz
    exact hs (hdz ▸ ha)

theorem skip_ne_nil_of_survivor (s : List Char) (hs : ∃ c ∈ s, c ≠ ',' ∧ c ≠ '.') :
    skip_repeating_pattern s ≠ [] := by
  rcases hs with ⟨c, hc, hc1, hc2⟩
  rw [skip_eq]
  apply collapseHash_ne_nil
  have hmem : dz c ∈ ((s.map dz).filter (fun x => x != ',')).filter (fun x => x != '.') := by
    have hd1 : (dz c != ',') = true := by
      rw [bne_iff_ne]
      rw [dz]
      by_cases h0 : c = '0'
      · rw [if_pos h0]; decide
      · rw [if_neg h0]; exact hc1
    have hd2 : (dz c != '.') = true := by
      rw [bne_iff_ne]
      rw [dz]
      by_cases h0 : c = '0'
      · rw [if_pos h0]; decide
      · rw [if_neg h0]; exact hc2
    exact List.mem_filter.mpr ⟨List.mem_filter.mpr ⟨List.mem_map_of_mem dz hc, hd1⟩, hd2⟩
  exact List.ne_nil_of_mem hmem

theorem skip_quoted (s : List Char) :
    skip_repeating_pattern (quoteChar :: s ++ [quoteChar]) =
      quoteChar :: skip_repeating_pattern s ++ [quoteChar] := by
  rw [skip_eq, skip_eq]
  have hdzq : dz quoteChar = quoteChar := by decide
  have h1 : (quoteChar != ',') = true := by decide
  have h2 : (quoteChar != '.') = true := by decide
  simp only [List.map_cons, List.map_append, List.map_cons, List.map_nil, hdzq,
    List.filter_cons, List.filter_append, List.filter_nil, h1, h2, if_pos]
  rw [List.cons_append, collapseHash_cons_ne quoteChar _ false (by decide),
    collapseHash_append_single quoteChar (by decide), List.cons_append]

theorem subst1_quoted (a : Char) (rep t : List Char) (ha : quoteChar ≠ a) :
    subst1 a rep (quoteChar :: t ++ [quoteChar]) =
      quoteChar :: subst1 a rep t ++ [quoteChar] := by
  simp [subst1, subst1_append, ha, if_neg ha]

/-! ## Lemmas about `pySplit` -/

theorem two_le_pySplit (sep : Char) : ∀ s, sep ∈ s → 2 ≤ (pySplit sep s).length := by
  intro s
  induction s with
  | nil => intro h; simp at h
  | cons c cs ih =>
    intro h
    simp only [pySplit]
    by_cases hc : c = sep
    · rw [if_pos hc]
      have h1 : 1 ≤ (pySplit sep cs).length :=
        List.length_pos.mpr (pySplit_ne_nil sep cs)
      simp only [List.length_cons]
      omega
    · rw [if_neg hc]
      have hmem : sep ∈ cs := by
        rcases List.mem_cons.mp h with h1 | h1
        · exact absurd h1.symm hc
        · exact h1
      have h2 := ih hmem
      cases hcs : pySplit sep cs with
      | nil => exact absurd hcs (pySplit_ne_nil sep cs)
      | cons p ps =>
        rw [hcs] at h2
        simpa using h2

theorem quote_stage_eq (B : List Char) (hBq : quoteChar ∉ B) (hBh : '#' ∉ B)
    (hBne : B ≠ []) :
    pyReplace ['#', '#', '#'] [quoteChar]
        (subst1 quoteChar []
          (pyReplace [quoteChar, quoteChar] ['#', '#', '#'] (quoteChar :: B ++ [quoteChar]))) = B ∧
    pyReplace ['#', '#', '#'] [quoteChar]
        (subst1 quoteChar [] (pyReplace [quoteChar, quoteChar] ['#', '#', '#'] B)) = B := by
  constructor
  · rw [pyReplace_pair_quoted quoteChar _ B hBq hBne]
    have e4 : subst1 quoteChar [] (quoteChar :: B ++ [quoteChar]) = B := by
      rw [show (quoteChar :: B ++ [quoteChar]) = ((quoteChar :: B) ++ [quoteChar]) from rfl,
        subst1_append]
      simp [subst1, subst1_of_not_mem _ _ _ hBq]
    rw [e4]
    exact pyReplace_id_of_head_not_mem '#' _ _ B hBh
  · rw [pyReplace_id_of_head_not_mem quoteChar [quoteChar] _ B hBq,
      subst1_of_not_mem _ _ _ hBq]
    exact pyReplace_id_of_head_not_mem '#' _ _ B hBh

/-! ## The claims -/

/-- C1 (amended): in number/currency pattern normalization each side, split on
the separator `;`, has every repeated run of digit-placeholder characters
collapsed into a single placeholder token — but only after the grouping and
decimal marker characters `,` and `.` have been removed entirely; they are
not kept as literals and never appear in the output of
`skip_repeating_pattern`. -/
theorem claim1_markers_removed_runs_collapsed (patterns side : List Char)
    (h : side ∈ pySplit ';' patterns) :
    skip_repeating_pattern side =
      squashHashRuns (((side.map dz).filter (fun c => c != ',')).filter (fun c => c != '.')) ∧
    ',' ∉ skip_repeating_pattern side ∧ '.' ∉ skip_repeating_pattern side := by
  refine ⟨?_, ?_, ?_⟩
  · rw [skip_eq, (collapseHash_eq_squash _).1]
  · intro hmem
    rw [skip_eq] at hmem
    have h1 := mem_collapseHash _ _ _ hmem
    have h2 := (List.mem_filter.mp h1).1
    have h3 := (List.mem_filter.mp h2).2
    simp at h3
  · intro hmem
    rw [skip_eq] at hmem
    have h1 := mem_collapseHash _ _ _ hmem
    have h3 := (List.mem_filter.mp h1).2
    simp at h3

/-- Witness for C1's amended theorem at the concrete pattern `0,0`. -/
theorem claim1_witness :
    skip_repeating_pattern ("0,0".toList) =
      squashHashRuns (((("0,0".toList).map dz).filter (fun c => c != ',')).filter
        (fun c => c != '.')) ∧
    ',' ∉ skip_repeating_pattern ("0,0".toList) ∧
    '.' ∉ skip_repeating_pattern ("0,0".toList) :=
  claim1_markers_removed_runs_collapsed ("0,0".toList) ("0,0".toList) (by decide)

/-- Counterexample to C1 as stated: for the source pattern `0,0` the grouping
marker `,` is not kept as a literal — the whole side collapses to the single
placeholder `%1`, in which `,` does not occur. -/
theorem claim1_counterexample :
    ',' ∈ ("0,0".toList) ∧
    parse_number_format ("0,0".toList) numAscii = [['%', '1']] ∧
    ',' ∉ (parse_number_format ("0,0".toList) numAscii).headD [] := by
  decide

/-- C2: the currency pattern of the claim normalizes to positive format
`%1 %2` and negative format `(%1 %2)`, both at the `parse_number_format`
level with ASCII minus/plus glyphs and end to end through
`_generateLocaleInfo` for the synthetic locale `xx_YY`. -/
theorem claim2_currency_formats :
    parse_number_format ("#,##0.00 ¤;(#,##0.00 ¤)".toList) numAscii =
      ["%1 %2".toList, "(%1 %2)".toList] ∧
    genLocaleInfo idsC2 feC2 "xx_YY.xml" "xx" "" "YY" "" =
      Except.ok (some
        { language_id := 111, script_id := 0, country_id := 222, variant_code := "",
          country_code := "YY", decimal := ".", group := ",", minus := "-", plus := "+",
          currencyFormat := "%1 %2", currencyNegativeFormat := "(%1 %2)" }) :=
  ⟨by decide, by decide⟩

/-- C3: with the lookup yielding `ko` for kilo and `Mo` for mega and nothing
for the remaining prefixes, the SI series continues `Go`, `To`, `Po`, `Eo`
(first letter of the prefix, upper-cased except kilo's lower-case `k`, plus
the inferred tail `o`), and the IEC pass extrapolates with the learned tail;
with no consistent suffix (kilo gives `ko` but mega `MB`) the tail defaults
to `B` for the SI pass and `iB` for the IEC pass. -/
theorem claim3_unit_quantifier_inference :
    (unit_quantifiers findFrLike id ("B".toList) []).1 =
      ["ko".toList, "Mo".toList, "Go".toList, "To".toList, "Po".toList, "Eo".toList] ∧
    (unit_quantifiers findFrLike id ("iB".toList)
        (unit_quantifiers findFrLike id ("B".toList) []).2).1 =
      ["Kio".toList, "Mio".toList, "Gio".toList, "Tio".toList, "Pio".toList,
        "Eio".toList] ∧
    (unit_quantifiers findMixed id ("B".toList) []).1 =
      ["ko".toList, "MB".toList, "GB".toList, "TB".toList, "PB".toList, "EB".toList] ∧
    (unit_quantifiers findMixed id ("iB".toList)
        (unit_quantifiers findMixed id ("B".toList) []).2).1 =
      ["KiB".toList, "MiB".toList, "GiB".toList, "TiB".toList, "PiB".toList,
        "EiB".toList] := by
  refine ⟨by decide, by decide, by decide, by decide⟩

/-- C4: whenever both sides of a likely-subtag entry parse successfully, the
substitution rule copies the source's concrete country into a target whose
country is the `AnyCountry` placeholder, and symmetrically for script. -/
theorem claim4_likely_subtag_substitution (nm : NameMaps) (fromTag toTag : List Char)
    (fl fs fc tl ts tc : String)
    (hf : _parseLocale nm fromTag = Except.ok (fl, fs, fc))
    (ht : _parseLocale nm toTag = Except.ok (tl, ts, tc)) :
    ∃ ts2 tc2,
      likelySubtagPair nm fromTag toTag = Except.ok ((fl, fs, fc), (tl, ts2, tc2)) ∧
      (tc = "AnyCountry" → fc ≠ "AnyCountry" → tc2 = fc) ∧
      (ts = "AnyScript" → fs ≠ "AnyScript" → ts2 = fs) := by
  refine ⟨if ts = "AnyScript" ∧ fs ≠ ts then fs else ts,
    if tc = "AnyCountry" ∧ fc ≠ tc then fc else tc, ?_, ?_, ?_⟩
  · simp only [likelySubtagPair, hf, ht]
    rfl
  · intro h1 h2
    rw [if_pos ⟨h1, by rw [h1]; exact h2⟩]
  · intro h1 h2
    rw [if_pos ⟨h1, by rw [h1]; exact h2⟩]

/-- Witness for C4: the entry `aa_ET` to `aa_Latn` — the target's
`AnyCountry` placeholder is replaced by the source's concrete country
Ethiopia. -/
theorem claim4_witness :
    ∃ ts2 tc2,
      likelySubtagPair nmAa ("aa_ET".toList) ("aa_Latn".toList) =
        Except.ok (("Afar", "AnyScript", "Ethiopia"), ("Afar", ts2, tc2)) ∧
      ("AnyCountry" = "AnyCountry" → "Ethiopia" ≠ "AnyCountry" → tc2 = "Ethiopia") ∧
      ("Latin" = "AnyScript" → "AnyScript" ≠ "AnyScript" → ts2 = "AnyScript") :=
  claim4_likely_subtag_substitution nmAa ("aa_ET".toList) ("aa_Latn".toList)
    "Afar" "AnyScript" "Ethiopia" "Afar" "Latin" "AnyCountry" (by decide) (by decide)

/-- C5 (amended): the per-file loop of `main` catches exactly the failures of
the dedicated `localetools.Error` class, converting each into a diagnostic
line while continuing the run; a failure of any other kind — such as the
`AssertionError` of the decimal-vs-group `assert` — is not caught at the
file-processing boundary and terminates the loop. -/
theorem claim5_error_catching_amended :
    (∀ (gen : String → Except PyExc (Option LocaleRecord)) (st : DriverState)
        (files : List String),
        (∀ f ∈ files, ∀ e, gen f = Except.error e → ∃ m, e = PyExc.error m) →
        ∃ st2, mainLoop gen st files = Except.ok st2) ∧
    (∀ (gen : String → Except PyExc (Option LocaleRecord)) (st : DriverState)
        (f : String) (fs : List String) (m : String),
        gen f = Except.error (PyExc.error m) →
        mainLoop gen st (f :: fs) =
          mainLoop gen { st with diags := st.diags ++ [skipFileMsg f m] } fs) := by
  constructor
  · intro gen st files
    induction files generalizing st with
    | nil => intro _; exact ⟨st, rfl⟩
    | cons f fs ih =>
      intro hh
      have htail : ∀ g ∈ fs, ∀ e, gen g = Except.error e → ∃ m, e = PyExc.error m :=
        fun g hg => hh g (List.mem_cons_of_mem f hg)
      cases hgen : gen f with
      | ok o =>
        cases o with
        | none =>
          simp only [mainLoop, processFile, hgen]
          exact ih _ htail
        | some l =>
          simp only [mainLoop, processFile, hgen]
          exact ih _ htail
      | error e =>
        obtain ⟨m, rfl⟩ := hh f (List.mem_cons_self f fs) e hgen
        simp only [mainLoop, processFile, hgen]
        exact ih _ htail
  · intro gen st f fs m h
    simp only [mainLoop, processFile, h]

/-- Witness for C5's amended theorem: a run whose only failures are of the
`Error` kind completes, and a variant rejection is converted into a
diagnostic entry. -/
theorem claim5_witness :
    (∃ st2, mainLoop genOkNone st0 ["a.xml"] = Except.ok st2) ∧
    mainLoop genVariant st0 ["a.xml"] =
      mainLoop genVariant
        { st0 with
          diags := st0.diags ++ [skipFileMsg "a.xml" "We do not support variants (POSIX)"] }
        [] := by
  constructor
  · exact claim5_error_catching_amended.1 genOkNone st0 ["a.xml"]
      (by intro f _ e he; simp [genOkNone] at he)
  · exact claim5_error_catching_amended.2 genVariant st0 "a.xml" []
      "We do not support variants (POSIX)" (by decide)

/-- Counterexample to C5 as stated: the failing decimal-equals-group `assert`
(source line 309) is a per-file failure that is not caught at the
file-processing boundary — it terminates the whole run. -/
theorem claim5_counterexample :
    mainLoop genAssert st0 ["xx_YY.xml"] =
      Except.error (PyExc.assertionError "decimal != group") := by
  decide

/-- C6: a locale record whose country code is absent from all three week-data
mappings receives the values mapped to the world default territory `001` for
all three fields. -/
theorem claim6_week_backfill (fd ws we : List (String × String)) (cc a b c : String)
    (h1 : dictGet fd cc = none) (h2 : dictGet ws cc = none) (h3 : dictGet we cc = none)
    (h4 : dictGet fd "001" = some a) (h5 : dictGet ws "001" = some b)
    (h6 : dictGet we "001" = some c) :
    integrateWeekLocale fd ws we cc =
      some { firstDayOfWeek := a, weekendStart := b, weekendEnd := c } := by
  simp [integrateWeekLocale, h1, h2, h3, h4, h5, h6]

/-- Witness for C6: country `ZZ` is unmapped, the `001` defaults
(`mon`/`sat`/`sun`) are taken for all three fields. -/
theorem claim6_witness :
    integrateWeekLocale fdWorld wsWorld weWorld "ZZ" =
      some { firstDayOfWeek := "mon", weekendStart := "sat", weekendEnd := "sun" } :=
  claim6_week_backfill fdWorld wsWorld weWorld "ZZ" "mon" "sat" "sun"
    (by decide) (by decide) (by decide) (by decide) (by decide) (by decide)

/-- C7 (amended): a locale file with a non-empty variant subtag makes record
generation raise the structural-rejection `Error` — provided its path ends in
`.xml` and its language tag is not the `root` placeholder (a root-language
file with a variant is skipped with an empty result instead of a failure);
the driver converts the failure into a diagnostic and inserts no database
entry. -/
theorem claim7_variant_rejection_amended (ids : IdMaps)
    (fe : String → Except String String) (path lang script country variant : String)
    (hx : pyEndsWithS ".xml" path = true) (hr : lang ≠ "root") (hv : variant ≠ "") :
    genLocaleInfo ids fe path lang script country variant =
      Except.error (PyExc.error ("We do not support variants (" ++ variant ++ ")")) ∧
    ∀ st f,
      processFile (fun _ => genLocaleInfo ids fe path lang script country variant) st f =
        Except.ok { st with diags :=
          st.diags ++ [skipFileMsg f ("We do not support variants (" ++ variant ++ ")")] } := by
  have h1 : genLocaleInfo ids fe path lang script country variant =
      Except.error (PyExc.error ("We do not support variants (" ++ variant ++ ")")) := by
    unfold genLocaleInfo
    rw [hx]
    simp only [Bool.not_true]
    rw [if_neg (by simp), if_neg hr, if_pos hv]
  exact ⟨h1, fun st f => by simp [processFile, h1]⟩

/-- Witness for C7's amended theorem at the concrete variant `POSIX`. -/
theorem claim7_witness :
    genLocaleInfo idsAll feAssert "b.xml" "xx" "" "YY" "POSIX" =
      Except.error (PyExc.error ("We do not support variants (" ++ "POSIX" ++ ")")) ∧
    processFile (fun _ => genLocaleInfo idsAll feAssert "b.xml" "xx" "" "YY" "POSIX")
        st0 "b.xml" =
      Except.ok { st0 with diags :=
        st0.diags ++ [skipFileMsg "b.xml" ("We do not support variants (" ++ "POSIX" ++ ")")] } := by
  have h := claim7_variant_rejection_amended idsAll feAssert "b.xml" "xx" "" "YY" "POSIX"
    (by decide) (by decide) (by decide)
  exact ⟨h.1, h.2 st0 "b.xml"⟩

/-- Counterexample to C7 as stated: a file whose identity carries the `root`
language tag together with a non-empty variant subtag does not raise any
failure — record generation returns the empty result (the file is skipped),
because the root check precedes the variant check. -/
theorem claim7_counterexample :
    genLocaleInfo idsAll feAssert "root.xml" "root" "" "" "POSIX" = Except.ok none := by
  decide

/-- C8: with a known (truthy) default numbering system, the symbol lookup
equals the first success among the attribute-filtered query, the
symbols-table-filtered query, and the unscoped query, each later query being
attempted only when every earlier one failed. -/
theorem claim8_number_system_fallback (fe : String → Except String String)
    (xpath n : String) (hn : n ≠ "") :
    (∀ v, fe (xpath ++ "[numberSystem=" ++ n ++ "]") = Except.ok v →
      get_number_in_system fe xpath (some n) = Except.ok v) ∧
    ((∃ e, fe (xpath ++ "[numberSystem=" ++ n ++ "]") = Except.error e) →
      ∀ v, fe (pyReplaceS "/symbols/" ("/symbols[numberSystem=" ++ n ++ "]/") xpath) =
          Except.ok v →
        get_number_in_system fe xpath (some n) = Except.ok v) ∧
    ((∃ e, fe (xpath ++ "[numberSystem=" ++ n ++ "]") = Except.error e) →
      (∃ e, fe (pyReplaceS "/symbols/" ("/symbols[numberSystem=" ++ n ++ "]/") xpath) =
          Except.error e) →
      get_number_in_system fe xpath (some n) = fe xpath) := by
  refine ⟨?_, ?_, ?_⟩
  · intro v hv
    simp [get_number_in_system, hn, hv]
  · rintro ⟨e, he⟩ v hv
    simp [get_number_in_system, hn, he, hv]
  · rintro ⟨e1, he1⟩ ⟨e2, he2⟩
    simp [get_number_in_system, hn, he1, he2]

/-- Witness for C8: the attribute-filtered decimal query fails and the
symbols-table-filtered spelling supplies the answer. -/
theorem claim8_witness :
    get_number_in_system feC8 "numbers/symbols/decimal" (some "latn") = Except.ok "," :=
  (claim8_number_system_fallback feC8 "numbers/symbols/decimal" "latn" (by decide)).2.1
    ⟨"miss", by decide⟩ "," (by decide)

/-- C9: splitting a locale name on underscores yields exactly one value when
the name contains no underscore and exactly three values (language,
script-or-empty, territory-or-empty) otherwise — never two. -/
theorem claim9_split_locale_arity (name : List Char) :
    ('_' ∉ name → splitLocale name = [name]) ∧
    ('_' ∈ name → (splitLocale name).length = 3) ∧
    ((splitLocale name).length = 1 ∨ (splitLocale name).length = 3) := by
  have main1 : '_' ∉ name → splitLocale name = [name] := by
    intro h
    unfold splitLocale
    rw [pySplit_of_not_mem '_' name h]
    rfl
  have main2 : '_' ∈ name → (splitLocale name).length = 3 := by
    intro h
    have h2 := two_le_pySplit '_' name h
    unfold splitLocale
    cases hsp : pySplit '_' name with
    | nil => exact absurd hsp (pySplit_ne_nil '_' name)
    | cons a t =>
      cases t with
      | nil => rw [hsp] at h2; simp at h2
      | cons b r =>
        cases r with
        | nil =>
          simp only [splitTags]
          split_ifs <;> rfl
        | cons c2 r2 =>
          simp only [splitTags]
          split_ifs <;> rfl
  refine ⟨main1, main2, ?_⟩
  by_cases h : '_' ∈ name
  · exact Or.inr (main2 h)
  · exact Or.inl (by rw [main1 h]; rfl)

/-- Witness for C9 at a one-tag and a two-tag name. -/
theorem claim9_witness :
    splitLocale ("aa".toList) = ["aa".toList] ∧
    (splitLocale ("aa_ET".toList)).length = 3 :=
  ⟨(claim9_split_locale_arity ("aa".toList)).1 (by decide),
   (claim9_split_locale_arity ("aa_ET".toList)).2.1 (by decide)⟩

/-- C10: pattern normalization does not protect single-quote-delimited
literal text: wrapping a quote-free span in quotes changes nothing — the
span undergoes exactly the digit-run collapsing and the `#`, `¤`, `-`, `+`
substitutions that unquoted text undergoes (the quotes themselves are
stripped).  The span is required to keep at least one character after the
marker erasure, since an empty quoted span is the escaped-apostrophe form. -/
theorem claim10_quotes_not_protected (d : NumData) (s : List Char)
    (hq : quoteChar ∉ s) (hs : ∃ c ∈ s, c ≠ ',' ∧ c ≠ '.') :
    normalize_side d (quoteChar :: s ++ [quoteChar]) = normalize_side d s := by
  have htq : quoteChar ∉ skip_repeating_pattern s := not_mem_skip quoteChar s (by decide) hq
  have htne : skip_repeating_pattern s ≠ [] := skip_ne_nil_of_survivor s hs
  have hAq : quoteChar ∉ subst1 '#' ['%', '1'] (skip_repeating_pattern s) := by
    intro hmem
    rcases mem_subst1 _ _ _ _ hmem with hr | ⟨hm, _⟩
    · exact absurd hr (by decide)
    · exact htq hm
  have hAh : '#' ∉ subst1 '#' ['%', '1'] (skip_repeating_pattern s) := by
    intro hmem
    rcases mem_subst1 _ _ _ _ hmem with hr | ⟨_, hm⟩
    · exact absurd hr (by decide)
    · exact hm rfl
  have hAne : subst1 '#' ['%', '1'] (skip_repeating_pattern s) ≠ [] :=
    subst1_ne_nil _ _ _ (by decide) htne
  have hBq : quoteChar ∉ subst1 '¤' ['%', '2'] (subst1 '#' ['%', '1'] (skip_repeating_pattern s)) := by
    intro hmem
    rcases mem_subst1 _ _ _ _ hmem with hr | ⟨hm, _⟩
    · exact absurd hr (by decide)
    · exact hAq hm
  have hBh : '#' ∉ subst1 '¤' ['%', '2'] (subst1 '#' ['%', '1'] (skip_repeating_pattern s)) := by
    intro hmem
    rcases mem_subst1 _ _ _ _ hmem with hr | ⟨hm, _⟩
    · exact absurd hr (by decide)
    · exact hAh hm
  have hBne : subst1 '¤' ['%', '2'] (subst1 '#' ['%', '1'] (skip_repeating_pattern s)) ≠ [] :=
    subst1_ne_nil _ _ _ (by decide) hAne
  unfold normalize_side
  rw [skip_quoted s]
  simp only [pyReplace_one]
  rw [subst1_quoted '#' ['%', '1'] _ (by decide), subst1_quoted '¤' ['%', '2'] _ (by decide)]
  rw [(quote_stage_eq _ hBq hBh hBne).1, (quote_stage_eq _ hBq hBh hBne).2]

/-- Witness for C10: a quoted minus sign is still replaced by the locale's
minus glyph. -/
theorem claim10_witness :
    normalize_side { minus := ['m'], plus := ['p'] } (quoteChar :: ['-'] ++ [quoteChar]) =
      normalize_side { minus := ['m'], plus := ['p'] } ['-'] ∧
    normalize_side { minus := ['m'], plus := ['p'] } ['-'] = ['m'] :=
  ⟨claim10_quotes_not_protected { minus := ['m'], plus := ['p'] } ['-'] (by decide)
      (by decide),
   by decide⟩

end Cldr
